import Mathlib

/-!
# Gift-App order subsystem: shallow embedding and verification

This file embeds the order-placement and order-lifecycle code of the
Gift-App repository (Next.js API routes over mongoose/MongoDB) and proves
or refutes the specification's claims about it.

Modelling conventions:
* JavaScript numbers (prices, quantities, stock counts, amounts) are
  modelled as exact rationals `ℚ`; the 0.01 tolerance of the total-amount
  check is `1/100`.
* Dates/timestamps are abstract integers (`Int`); `new Date()` at the start
  of a request is the parameter `now`, and "+1 hour" is `+3600`.
* MongoDB collections are association lists keyed by id strings; a
  mongoose `findById` is a first-match lookup, a `save` of an existing
  document replaces the entry with that key.
* The route handler `POST /api/orders` starts a mongoose transaction
  `orderSession`, but the per-item stock write is `gift.save({ session })`
  where `session` is the next-auth session object obtained earlier in the
  handler, not `orderSession`.  The stock writes are therefore not
  enrolled in the transaction: they take durable effect immediately and
  `abortTransaction` rolls back only the order write.  The embedding
  reflects this: gift writes are applied directly to the store, the order
  write is applied only on the commit path.
* The external Zod validator is embedded check-for-check from
  `OrderValidationSchema`; mongoose schema-path validators that constrain
  values (`min`, `enum`) are embedded from the `OrderSchema` definition;
  purely structural requirements (field presence, types) hold by typing.
-/

namespace GiftApp

/-- A tracking event, from the `tracking` sub-document of `OrderSchema`:
`{status, timestamp, description}`. -/
structure TrackingEvent where
  status : String
  timestamp : Int
  description : String
deriving Repr, DecidableEq

/-- A gift document, from `GiftSchema` in `src/global/models/Gift.ts`
(review subdocuments are omitted; no claim mentions them). -/
structure Gift where
  name : String
  description : String
  price : ℚ
  images : List String
  category : String
  ageMin : ℚ
  ageMax : ℚ
  gender : String
  tags : List String
  inStock : Bool
  stockCount : ℚ
  estimatedDeliveryTime : ℚ
  rating : ℚ
  isPopular : Bool
  discount : ℚ
deriving Repr, DecidableEq

/-- Order recipient sub-document. -/
structure Recipient where
  name : String
  age : ℚ
  gender : String
  occasion : Option String
deriving Repr, DecidableEq

/-- One ordered line item: gift reference, quantity, unit price. -/
structure OrderItem where
  gift : String
  quantity : ℚ
  price : ℚ
deriving Repr, DecidableEq

/-- Delivery address sub-document. -/
structure DeliveryAddress where
  address : String
  city : String
  state : String
  zipCode : String
deriving Repr, DecidableEq

/-- Payment info sub-document. -/
structure PaymentInfo where
  method : String
  status : String
  transactionId : Option String
deriving Repr, DecidableEq

/-- Geographic location of a delivery partner. -/
structure Location where
  lat : ℚ
  lng : ℚ
deriving Repr, DecidableEq

/-- Delivery partner sub-document. -/
structure DeliveryPartner where
  name : String
  phone : String
  currentLocation : Option Location
deriving Repr, DecidableEq

/-- An order document as persisted (shape of `IOrder` / `OrderSchema`). -/
structure OrderData where
  user : String
  recipient : Recipient
  items : List OrderItem
  deliveryAddress : DeliveryAddress
  paymentInfo : PaymentInfo
  status : String
  deliveryTime : Int
  specialInstructions : Option String
  totalAmount : ℚ
  deliveryFee : ℚ
  tax : ℚ
  discount : ℚ
  deliveryPartner : Option DeliveryPartner
  tracking : List TrackingEvent
deriving Repr, DecidableEq

/-- The JSON body of a `POST /api/orders` request, after `req.json()`.
Fields that `OrderValidationSchema` defaults or marks optional are
`Option`s; the remaining fields are typed as the schema expects (a body of
the wrong shape fails the Zod type checks, which is outside the
value-level behaviour the claims are about). -/
structure RawOrderBody where
  user : Option String
  recipient : Recipient
  items : List OrderItem
  deliveryAddress : DeliveryAddress
  paymentMethod : String
  paymentStatus : Option String
  transactionId : Option String
  status : Option String
  deliveryTime : Option Int
  specialInstructions : Option String
  totalAmount : ℚ
  deliveryFee : ℚ
  tax : ℚ
  discount : Option ℚ
  deliveryPartner : Option DeliveryPartner
  tracking : Option (List TrackingEvent)
deriving Repr, DecidableEq

/-- Enum of order lifecycle statuses (`OrderValidationSchema.status`,
`OrderSchema.status`). -/
def orderStatuses : List String :=
  ["pending", "confirmed", "preparing", "out_for_delivery", "delivered",
   "canceled"]

/-- Enum of payment methods (`PaymentInfoSchema.method`). -/
def paymentMethods : List String :=
  ["credit_card", "debit_card", "upi", "wallet", "cash_on_delivery"]

/-- Enum of payment statuses (`PaymentInfoSchema.status`). -/
def paymentStatuses : List String :=
  ["pending", "completed", "failed", "refunded"]

/-- Enum of recipient genders (`RecipientSchema.gender`). -/
def genders : List String := ["boy", "girl", "unisex"]

/-- `zipCode: z.string().regex(/^\d{5,6}$/)`. -/
def zipOk (z : String) : Bool :=
  (z.length == 5 || z.length == 6) && z.data.all Char.isDigit

/-- `phone: z.string().regex(/^\d{10}$/)` of `DeliveryPartnerSchema`. -/
def phoneOk (p : String) : Bool :=
  p.length == 10 && p.data.all Char.isDigit

/-- `Σ item.price × item.quantity` — the reduce inside the
`OrderValidationSchema.refine` callback. -/
def itemsTotal (items : List OrderItem) : ℚ :=
  items.foldl (fun sum it => sum + it.price * it.quantity) 0

/-- The `.refine` of `OrderValidationSchema`:
`|calculatedTotal + deliveryFee + tax - discount - totalAmount| < 0.01`. -/
def totalAmountOk (d : OrderData) : Bool :=
  |itemsTotal d.items + d.deliveryFee + d.tax - d.discount - d.totalAmount|
    < (1 : ℚ) / 100

/-- The value-level checks of the Zod `OrderValidationSchema` applied to a
fully-defaulted order document (this is exactly what the mongoose
`pre("save")` hook runs, via `OrderValidationSchema.parse`). -/
def zodOrderValid (d : OrderData) : Bool :=
  d.user.length ≥ 1 &&
  d.recipient.name.length ≥ 2 &&
  d.recipient.age ≥ 0 &&
  genders.contains d.recipient.gender &&
  d.items.length ≥ 1 &&
  d.items.all (fun it =>
    it.gift.length ≥ 1 && decide (0 < it.quantity) && decide (0 ≤ it.price)) &&
  d.deliveryAddress.address.length ≥ 5 &&
  d.deliveryAddress.city.length ≥ 2 &&
  d.deliveryAddress.state.length ≥ 2 &&
  zipOk d.deliveryAddress.zipCode &&
  paymentMethods.contains d.paymentInfo.method &&
  paymentStatuses.contains d.paymentInfo.status &&
  orderStatuses.contains d.status &&
  decide (0 < d.totalAmount) &&
  decide (0 ≤ d.deliveryFee) &&
  decide (0 ≤ d.tax) &&
  decide (0 ≤ d.discount) &&
  (match d.deliveryPartner with
   | none => true
   | some p => phoneOk p.phone) &&
  d.tracking.all (fun e => e.status.length ≥ 1) &&
  totalAmountOk d

/-- The mongoose schema-path validators of `OrderSchema` that constrain
values: `items.quantity: min 1`, `recipient.age: min 0`, and the `enum`
paths.  These run on `order.save()` before the `pre("save")` hook. -/
def mongooseOrderValid (d : OrderData) : Bool :=
  d.recipient.age ≥ 0 &&
  genders.contains d.recipient.gender &&
  d.items.all (fun it => decide ((1 : ℚ) ≤ it.quantity)) &&
  paymentMethods.contains d.paymentInfo.method &&
  paymentStatuses.contains d.paymentInfo.status &&
  orderStatuses.contains d.status

/-- `order.save()` succeeds iff the document passes both the mongoose
schema validators and the Zod re-validation of the `pre("save")` hook. -/
def orderSaveOk (d : OrderData) : Bool :=
  mongooseOrderValid d && zodOrderValid d

/-- Applies the Zod defaults to a raw body with `user` and `deliveryTime`
already resolved, yielding the `validation.data` document. -/
def buildOrderData (u : String) (dt : Int) (b : RawOrderBody) : OrderData :=
  { user := u
    recipient := b.recipient
    items := b.items
    deliveryAddress := b.deliveryAddress
    paymentInfo :=
      { method := b.paymentMethod
        status := b.paymentStatus.getD "pending"
        transactionId := b.transactionId }
    status := b.status.getD "pending"
    deliveryTime := dt
    specialInstructions := b.specialInstructions
    totalAmount := b.totalAmount
    deliveryFee := b.deliveryFee
    tax := b.tax
    discount := b.discount.getD 0
    deliveryPartner := b.deliveryPartner
    tracking := b.tracking.getD [] }

/-- `validateData(OrderValidationSchema, body)`: `user` is a required
string of length ≥ 1, `deliveryTime` a required date; the defaults are
applied and the value checks run.  `none` is a Zod failure (the handler
answers HTTP 400). -/
def orderValidate (b : RawOrderBody) : Option OrderData :=
  match b.user, b.deliveryTime with
  | some u, some dt =>
      let d := buildOrderData u dt b
      if zodOrderValid d then some d else none
  | _, _ => none

/-- The `gifts` collection: id-keyed association list. -/
abbrev GiftStore := List (String × Gift)

/-- `Gift.findById`. -/
def findGift (db : GiftStore) (id : String) : Option Gift :=
  (db.find? (fun p => p.1 == id)).map (fun p => p.2)

/-- `gift.save()` for a document loaded from the store: replaces the
entry with that id. -/
def saveGift (db : GiftStore) (id : String) (g : Gift) : GiftStore :=
  db.map (fun p => if p.1 == id then (id, g) else p)

/-- The `orders` collection: id-keyed association list. -/
abbrev OrderStore := List (String × OrderData)

/-- `Order.findById`. -/
def findOrder (db : OrderStore) (id : String) : Option OrderData :=
  (db.find? (fun p => p.1 == id)).map (fun p => p.2)

/-- Replacement save of an existing order document. -/
def saveOrder (db : OrderStore) (id : String) (o : OrderData) : OrderStore :=
  db.map (fun p => if p.1 == id then (id, o) else p)

/-- The database state: the two collections the order core touches. -/
structure DB where
  gifts : GiftStore
  orders : OrderStore
deriving Repr, DecidableEq

/-- Database-touching steps of a request, in program order. -/
inductive DBEvent where
  | connect
  | txStart
  | giftRead (id : String)
  | giftWrite (id : String)
  | orderWrite
  | txCommit
  | txAbort
deriving Repr, DecidableEq

/-- The stock mutation of one loop iteration:
`gift.stockCount -= item.quantity; if (gift.stockCount === 0) gift.inStock = false`. -/
def decrementGift (g : Gift) (q : ℚ) : Gift :=
  { g with
      stockCount := g.stockCount - q
      inStock := if g.stockCount - q = 0 then false else g.inStock }

/-- The per-item stock loop of `POST /api/orders`: for each item, load the
gift, require `inStock && stockCount ≥ quantity` (else throw naming the
item), decrement, flip `inStock` when the count hits 0, and save.  Because
`gift.save({ session })` passes the next-auth session rather than
`orderSession`, each save takes durable effect at once; on a thrown error
the store already holding the earlier decrements is returned together with
the offending gift id.

Fidelity note for requests that reference the same gift in two line
items: here the loop's later read sees the earlier iteration's write,
while in the code the read uses `.session(orderSession)` and so sees the
transaction-start snapshot, the durable writes landing outside the
transaction (the later write superseding the earlier one).  The theorems
below therefore state per-item stock conclusions only for requests whose
line items reference pairwise-distinct gifts, where the two semantics
coincide; the duplicate case is touched only through conclusions that
hold under both (such as: the earlier item's exact decrement does not
survive the call). -/
def processItems (gifts : GiftStore) :
    List OrderItem → GiftStore × List DBEvent × Option String
  | [] => (gifts, [], none)
  | it :: rest =>
    match findGift gifts it.gift with
    | none => (gifts, [.giftRead it.gift], some it.gift)
    | some g =>
      if g.inStock = true ∧ it.quantity ≤ g.stockCount then
        match processItems (saveGift gifts it.gift (decrementGift g it.quantity)) rest with
        | (gs, evs, err) =>
            (gs, .giftRead it.gift :: .giftWrite it.gift :: evs, err)
      else (gifts, [.giftRead it.gift], some it.gift)

/-- Result of `POST /api/orders` (`placeOrder`), by HTTP outcome:
401 / 400 / 500 (stock check threw) / 500 (`order.save` rejected) / 201. -/
inductive PlaceResult where
  | unauthenticated
  | validationFailed
  | stockFailure (giftId : String)
  | saveFailure
  | created (o : OrderData)
deriving Repr, DecidableEq

/-- Outcome of a placement request: HTTP-level result, durable database
state after the handler returns, and the database-touching event trace. -/
structure PlaceOutcome where
  result : PlaceResult
  db : DB
  events : List DBEvent
deriving Repr, DecidableEq

/-- Lines 37–44 of the handler: `body.user = session.user.id`, and the
delivery-time default `now + 1 hour` when the body supplies none. -/
def stampBody (uid : String) (now : Int) (b : RawOrderBody) : RawOrderBody :=
  { b with
      user := some uid
      deliveryTime := some (b.deliveryTime.getD (now + 3600)) }

/-- Lines 83–92 of the handler: `new Order(validation.data)` with
`order.tracking` overwritten to the single initial event
`{status: "pending", timestamp: new Date(), description: "Order received"}`. -/
def mkOrder (data : OrderData) (now : Int) : OrderData :=
  { data with tracking := [⟨"pending", now, "Order received"⟩] }

/-- The `POST /api/orders` handler.  In program order: connect to the
database; resolve the session (401 when absent); overwrite `body.user`
with the caller id; default `body.deliveryTime` to now + 1 hour; Zod
validation (400 on failure); start a transaction; run the stock loop
(gift writes durable at once, see `processItems`); build the order with
`tracking` overwritten to the single "Order received" event; save it in
the transaction and commit, or abort on any throw — the abort undoes only
the order write. -/
def placeOrder (callerId : Option String) (body : RawOrderBody) (now : Int)
    (newId : String) (db : DB) : PlaceOutcome :=
  match callerId with
  | none => ⟨.unauthenticated, db, [.connect]⟩
  | some uid =>
    match orderValidate (stampBody uid now body) with
    | none => ⟨.validationFailed, db, [.connect]⟩
    | some data =>
      match processItems db.gifts data.items with
      | (gifts', evs, some gid) =>
          ⟨.stockFailure gid, { db with gifts := gifts' },
            .connect :: .txStart :: evs ++ [.txAbort]⟩
      | (gifts', evs, none) =>
          let order : OrderData := mkOrder data now
          if orderSaveOk order then
            ⟨.created order, ⟨gifts', db.orders ++ [(newId, order)]⟩,
              .connect :: .txStart :: evs ++ [.orderWrite, .txCommit]⟩
          else
            ⟨.saveFailure, { db with gifts := gifts' },
              .connect :: .txStart :: evs ++ [.txAbort]⟩

/-- The JSON body of a `PUT /api/orders/[id]` request: the handler reads
only these three fields. -/
structure UpdateBody where
  specialInstructions : Option String
  status : Option String
  cancellationReason : Option String
deriving Repr, DecidableEq

/-- `body.cancellationReason || "Canceled by customer"` — JavaScript `||`,
so an absent or empty (falsy) reason yields the default. -/
def cancelDescription (reason : Option String) : String :=
  match reason with
  | some r => if r = "" then "Canceled by customer" else r
  | none => "Canceled by customer"

/-- Result of `PUT /api/orders/[id]`, by HTTP outcome:
401 / 404 / 403 / 400 (not pending or confirmed) / 500 (save rejected) /
200 with the updated order. -/
inductive UpdateResult where
  | unauthenticated
  | notFound
  | accessDenied
  | invalidState
  | saveFailed
  | updated (o : OrderData)
deriving Repr, DecidableEq

/-- Lines 111–114 of the handler: replace `specialInstructions` when the
patch supplies one. -/
def applyInstructions (o : OrderData) (si : Option String) : OrderData :=
  match si with
  | some s => { o with specialInstructions := some s }
  | none => o

/-- The `PUT /api/orders/[id]` handler: auth, lookup, ownership check,
status-mutability gate (only `pending`/`confirmed`), then replace
`specialInstructions` when supplied, handle a `status = "canceled"`
request by flipping the status and pushing one tracking event, and
`order.save()` (500 when the save's validation rejects, leaving the
stored document unchanged). -/
def updateOrder (callerId : Option String) (orderId : String)
    (body : UpdateBody) (now : Int) (db : DB) : UpdateResult × DB :=
  match callerId with
  | none => (.unauthenticated, db)
  | some uid =>
    match findOrder db.orders orderId with
    | none => (.notFound, db)
    | some o =>
      if o.user ≠ uid then (.accessDenied, db)
      else if ¬ (o.status = "pending" ∨ o.status = "confirmed") then
        (.invalidState, db)
      else
        let o1 : OrderData := applyInstructions o body.specialInstructions
        let o2 : OrderData :=
          if body.status = some "canceled" ∧
              (o1.status = "pending" ∨ o1.status = "confirmed") then
            { o1 with
                status := "canceled"
                tracking := o1.tracking ++
                  [⟨"canceled", now, cancelDescription body.cancellationReason⟩] }
          else o1
        if orderSaveOk o2 then
          (.updated o2, { db with orders := saveOrder db.orders orderId o2 })
        else (.saveFailed, db)

/-- The document a successful cancellation request produces: instructions
applied, status flipped, one cancellation tracking event appended. -/
def cancelUpdate (o : OrderData) (ub : UpdateBody) (now : Int) : OrderData :=
  { applyInstructions o ub.specialInstructions with
      status := "canceled"
      tracking := (applyInstructions o ub.specialInstructions).tracking ++
        [⟨"canceled", now, cancelDescription ub.cancellationReason⟩] }

/-- Result of `GET /api/orders/[id]`: 401 / 404 / 403 / 200 with the
order. -/
inductive GetResult where
  | unauthenticated
  | notFound
  | accessDenied
  | ok (o : OrderData)
deriving Repr, DecidableEq

/-- The `GET /api/orders/[id]` handler: auth, lookup, ownership check,
then return the order.  It performs no writes, so the database state is
returned unchanged on every path. -/
def getOrder (callerId : Option String) (orderId : String) (db : DB) :
    GetResult × DB :=
  match callerId with
  | none => (.unauthenticated, db)
  | some uid =>
    match findOrder db.orders orderId with
    | none => (.notFound, db)
    | some o =>
      if o.user ≠ uid then (.accessDenied, db)
      else (.ok o, db)

/-- The gift stock invariant of the spec: `inStock == (stockCount > 0)`. -/
def giftInvariant (g : Gift) : Prop :=
  g.inStock = true ↔ 0 < g.stockCount

instance (g : Gift) : Decidable (giftInvariant g) := by
  unfold giftInvariant; infer_instance

/-! ## Concrete fixtures used by witnesses and counterexamples -/

/-- A stocked demo gift: 5 units available. -/
def teddy : Gift :=
  { name := "Teddy Bear", description := "A soft plush teddy bear toy"
    price := 10, images := ["https://example.com/teddy.png"]
    category := "toys", ageMin := 1, ageMax := 8, gender := "unisex"
    tags := [], inStock := true, stockCount := 5
    estimatedDeliveryTime := 45, rating := 4, isPopular := true
    discount := 0 }

/-- An out-of-stock demo gift. -/
def puzzle : Gift :=
  { name := "Puzzle Set", description := "A 100 piece jigsaw puzzle set"
    price := 6, images := ["https://example.com/puzzle.png"]
    category := "educational", ageMin := 4, ageMax := 12, gender := "unisex"
    tags := [], inStock := false, stockCount := 0
    estimatedDeliveryTime := 60, rating := 3, isPopular := false
    discount := 0 }

/-- Demo recipient passing all schema checks. -/
def demoRecipient : Recipient := ⟨"Asha", 7, "girl", none⟩

/-- Demo delivery address passing all schema checks. -/
def demoAddress : DeliveryAddress := ⟨"12 Rose Street", "Chennai", "TN", "600001"⟩

/-- Demo database: one stocked gift, one out-of-stock gift, no orders. -/
def demoDB : DB := ⟨[("g1", teddy), ("g2", puzzle)], []⟩

/-- A two-item order body whose second item is out of stock:
`2 × 10 + 1 × 6 + 5 + 1 − 0 = 32 = totalAmount`. -/
def twoItemBody : RawOrderBody :=
  { user := none, recipient := demoRecipient
    items := [⟨"g1", 2, 10⟩, ⟨"g2", 1, 6⟩]
    deliveryAddress := demoAddress
    paymentMethod := "upi", paymentStatus := none, transactionId := none
    status := none, deliveryTime := some 1000
    specialInstructions := none
    totalAmount := 32, deliveryFee := 5, tax := 1, discount := none
    deliveryPartner := none, tracking := none }

/-- A valid one-item order body: `2 × 10 + 5 + 1 − 0 = 26 = totalAmount`. -/
def oneItemBody : RawOrderBody :=
  { user := none, recipient := demoRecipient
    items := [⟨"g1", 2, 10⟩]
    deliveryAddress := demoAddress
    paymentMethod := "upi", paymentStatus := none, transactionId := none
    status := none, deliveryTime := some 1000
    specialInstructions := none
    totalAmount := 26, deliveryFee := 5, tax := 1, discount := none
    deliveryPartner := none, tracking := none }

/-- One-item order body with a fractional quantity strictly between 0 and
1: `(1/2) × 10 + 5 + 1 − 0 = 11 = totalAmount`. -/
def fractionalBody : RawOrderBody :=
  { oneItemBody with
      items := [⟨"g1", 1/2, 10⟩]
      totalAmount := 11 }

/-- A persisted pending demo order owned by `"u1"`, passing every save
validator. -/
def demoOrder : OrderData :=
  { user := "u1", recipient := demoRecipient
    items := [⟨"g1", 2, 10⟩]
    deliveryAddress := demoAddress
    paymentInfo := ⟨"upi", "pending", none⟩
    status := "pending", deliveryTime := 1000
    specialInstructions := none
    totalAmount := 26, deliveryFee := 5, tax := 1, discount := 0
    deliveryPartner := none
    tracking := [⟨"pending", 0, "Order received"⟩] }

/-- Demo database holding `demoOrder` under id `"o1"`. -/
def demoOrderDB : DB := ⟨[("g1", teddy)], [("o1", demoOrder)]⟩

/-- `demoOrder` already delivered, stored under id `"o2"`. -/
def deliveredOrder : OrderData := { demoOrder with status := "delivered" }

/-- Demo database holding `deliveredOrder` under id `"o2"`. -/
def demoDeliveredDB : DB := ⟨[("g1", teddy)], [("o2", deliveredOrder)]⟩

/-- `oneItemBody` with a caller-supplied lifecycle status. -/
def statusBody : RawOrderBody := { oneItemBody with status := some "confirmed" }

/-- The order that placing `statusBody` persists. -/
def confirmedPlaced : OrderData := { demoOrder with status := "confirmed" }

/-- A two-item order body whose line items reference the same gift twice:
`2 × 10 + 3 × 10 + 5 + 1 − 0 = 56 = totalAmount`. -/
def dupBody : RawOrderBody :=
  { oneItemBody with
      items := [⟨"g1", 2, 10⟩, ⟨"g1", 3, 10⟩]
      totalAmount := 56 }

/-- The order that placing `dupBody` persists (the order document itself
is independent of the stock-loop semantics). -/
def dupOrder : OrderData :=
  { demoOrder with
      items := [⟨"g1", 2, 10⟩, ⟨"g1", 3, 10⟩]
      totalAmount := 56 }

/-- The order that cancelling `demoOrder` at time 50 with an empty
cancellation reason produces. -/
def canceledDefaultDesc : OrderData :=
  { demoOrder with
      status := "canceled"
      tracking := demoOrder.tracking ++
        [⟨"canceled", 50, "Canceled by customer"⟩] }

/-- The monetary invariant of the spec, as a proposition:
`totalAmount` is within 0.01 of
`Σ(item.price × item.quantity) + deliveryFee + tax − discount`. -/
def totalWithinTolerance (o : OrderData) : Prop :=
  |itemsTotal o.items + o.deliveryFee + o.tax - o.discount - o.totalAmount|
    < (1 : ℚ) / 100

instance (o : OrderData) : Decidable (totalWithinTolerance o) := by
  unfold totalWithinTolerance; infer_instance

/-! ## Store lemmas -/

theorem findGift_saveGift_ne (db : GiftStore) (id id' : String) (g : Gift)
    (h : id' ≠ id) : findGift (saveGift db id g) id' = findGift db id' := by
  induction db with
  | nil => rfl
  | cons p rest ih =>
    simp only [saveGift, List.map_cons, findGift] at ih ⊢
    by_cases hp : p.1 = id
    · rw [if_pos (by simpa using hp)]
      rw [List.find?_cons_of_neg _ (by simpa using Ne.symm h),
          List.find?_cons_of_neg _ (by simp [hp]; exact Ne.symm h)]
      exact ih
    · rw [if_neg (by simpa using hp)]
      by_cases hq : p.1 = id'
      · rw [List.find?_cons_of_pos _ (by simpa using hq),
          List.find?_cons_of_pos _ (by simpa using hq)]
      · rw [List.find?_cons_of_neg _ (by simpa using hq),
          List.find?_cons_of_neg _ (by simpa using hq)]
        exact ih

theorem findGift_saveGift_self (db : GiftStore) (id : String) (g g₀ : Gift)
    (h : findGift db id = some g₀) : findGift (saveGift db id g) id = some g := by
  induction db with
  | nil => simp [findGift] at h
  | cons p rest ih =>
    simp only [saveGift, List.map_cons, findGift] at ih h ⊢
    by_cases hp : p.1 = id
    · rw [if_pos (by simpa using hp)]
      rw [List.find?_cons_of_pos _ (by simp)]
      rfl
    · rw [if_neg (by simpa using hp)]
      rw [List.find?_cons_of_neg _ (by simpa using hp)]
      rw [List.find?_cons_of_neg _ (by simpa using hp)] at h
      exact ih h

/-! ## Stock-loop lemmas -/

/-- A gift written by the stock loop satisfies the stock invariant: the
guard guarantees `quantity ≤ stockCount` and `inStock` before the
decrement, and the loop flips `inStock` exactly when the count hits 0. -/
theorem decrementGift_invariant (g : Gift) (q : ℚ) (hs : g.inStock = true)
    (hq : q ≤ g.stockCount) : giftInvariant (decrementGift g q) := by
  unfold giftInvariant decrementGift
  by_cases h0 : g.stockCount - q = 0
  · simp [h0]
  · have hnn : 0 ≤ g.stockCount - q := sub_nonneg.mpr hq
    have hpos : 0 < g.stockCount - q := lt_of_le_of_ne hnn (Ne.symm h0)
    simp [h0, hs, hpos]

/-- A gift not referenced by any line item is untouched by the stock loop,
whether the loop completes or throws. -/
theorem processItems_untouched (items : List OrderItem)
    (gifts gifts' : GiftStore) (evs : List DBEvent) (err : Option String)
    (id : String) (hp : processItems gifts items = (gifts', evs, err))
    (hid : id ∉ items.map (fun it => it.gift)) :
    findGift gifts' id = findGift gifts id := by
  induction items generalizing gifts evs err with
  | nil =>
    simp only [processItems] at hp
    cases hp; rfl
  | cons it rest ih =>
    simp only [List.map_cons, List.mem_cons] at hid
    push_neg at hid
    obtain ⟨h1, h2⟩ := hid
    simp only [processItems] at hp
    cases hg : findGift gifts it.gift with
    | none => rw [hg] at hp; cases hp; rfl
    | some g =>
      rw [hg] at hp
      dsimp only at hp
      by_cases hc : g.inStock = true ∧ it.quantity ≤ g.stockCount
      · rw [if_pos hc] at hp
        rcases hrec : processItems
            (saveGift gifts it.gift (decrementGift g it.quantity)) rest with
          ⟨gs, evs2, err2⟩
        rw [hrec] at hp
        dsimp only at hp
        cases hp
        rw [ih _ _ _ hrec h2]
        exact findGift_saveGift_ne _ _ _ _ h1
      · rw [if_neg hc] at hp
        cases hp; rfl

/-- Every gift in the store after the stock loop is either exactly the
gift that was there before the loop, or satisfies the stock invariant —
on the throwing path as much as on the completing path. -/
theorem processItems_kept_or_invariant (items : List OrderItem)
    (gifts gifts' : GiftStore) (evs : List DBEvent) (err : Option String)
    (id : String) (g' : Gift)
    (hp : processItems gifts items = (gifts', evs, err))
    (hf : findGift gifts' id = some g') :
    findGift gifts id = some g' ∨ giftInvariant g' := by
  induction items generalizing gifts evs err with
  | nil =>
    simp only [processItems] at hp
    cases hp; exact Or.inl hf
  | cons it rest ih =>
    simp only [processItems] at hp
    cases hg : findGift gifts it.gift with
    | none => rw [hg] at hp; cases hp; exact Or.inl hf
    | some g =>
      rw [hg] at hp
      dsimp only at hp
      by_cases hc : g.inStock = true ∧ it.quantity ≤ g.stockCount
      · rw [if_pos hc] at hp
        rcases hrec : processItems
            (saveGift gifts it.gift (decrementGift g it.quantity)) rest with
          ⟨gs, evs2, err2⟩
        rw [hrec] at hp
        dsimp only at hp
        cases hp
        rcases ih _ _ _ hrec with hkept | hinv
        · by_cases hid : id = it.gift
          · subst hid
            rw [findGift_saveGift_self _ _ _ g hg] at hkept
            cases hkept
            exact Or.inr (decrementGift_invariant g it.quantity hc.1 hc.2)
          · rw [findGift_saveGift_ne _ _ _ _ hid] at hkept
            exact Or.inl hkept
        · exact Or.inr hinv
      · rw [if_neg hc] at hp
        cases hp; exact Or.inl hf

/-- The gift store a placement call leaves behind is either the input
store or the output of the stock loop on the validated items. -/
theorem placeOrder_gifts_cases (c : Option String) (b : RawOrderBody)
    (now : Int) (newId : String) (db : DB) :
    (placeOrder c b now newId db).db.gifts = db.gifts ∨
    ∃ items evs err, processItems db.gifts items =
      ((placeOrder c b now newId db).db.gifts, evs, err) := by
  unfold placeOrder
  split
  · exact Or.inl rfl
  next uid =>
    split
    · exact Or.inl rfl
    next data hv =>
      split
      next gifts' evs gid hp => exact Or.inr ⟨data.items, evs, some gid, hp⟩
      next gifts' evs hp =>
        dsimp only
        split
        · exact Or.inr ⟨data.items, evs, none, hp⟩
        · exact Or.inr ⟨data.items, evs, none, hp⟩

/-- When the stock loop completes without throwing and the line items
reference pairwise-distinct gifts, every referenced gift existed, passed
the stock check, and ends up decremented by exactly the item quantity. -/
theorem processItems_ok_decrement (items : List OrderItem)
    (gifts gifts' : GiftStore) (evs : List DBEvent)
    (hp : processItems gifts items = (gifts', evs, none))
    (hnd : (items.map (fun it => it.gift)).Nodup)
    (it : OrderItem) (hit : it ∈ items) :
    ∃ g, findGift gifts it.gift = some g ∧ g.inStock = true ∧
      it.quantity ≤ g.stockCount ∧
      findGift gifts' it.gift = some (decrementGift g it.quantity) := by
  induction items generalizing gifts evs with
  | nil => cases hit
  | cons hd rest ih =>
    simp only [processItems] at hp
    cases hg : findGift gifts hd.gift with
    | none => rw [hg] at hp; cases hp
    | some g =>
      rw [hg] at hp
      dsimp only at hp
      by_cases hc : g.inStock = true ∧ hd.quantity ≤ g.stockCount
      · rw [if_pos hc] at hp
        rcases hrec : processItems
            (saveGift gifts hd.gift (decrementGift g hd.quantity)) rest with
          ⟨gs, evs2, err2⟩
        rw [hrec] at hp
        dsimp only at hp
        cases hp
        simp only [List.map_cons, List.nodup_cons] at hnd
        obtain ⟨hnotin, hnd'⟩ := hnd
        rcases List.mem_cons.mp hit with heq | hmem
        · subst heq
          refine ⟨g, hg, hc.1, hc.2, ?_⟩
          rw [processItems_untouched rest _ _ _ _ it.gift hrec hnotin]
          exact findGift_saveGift_self _ _ _ _ hg
        · obtain ⟨g₂, hfind₂, hin₂, hq₂, hout₂⟩ := ih _ _ hrec hnd' hmem
          have hne : it.gift ≠ hd.gift := by
            intro hEq
            exact hnotin (hEq ▸ List.mem_map_of_mem _ hmem)
          rw [findGift_saveGift_ne _ _ _ _ hne] at hfind₂
          exact ⟨g₂, hfind₂, hin₂, hq₂, hout₂⟩
      · rw [if_neg hc] at hp
        cases hp

/-- A document passing the Zod order schema satisfies the monetary
tolerance check of the trailing `.refine`. -/
theorem zodOrderValid_tolerance (d : OrderData)
    (h : zodOrderValid d = true) : totalWithinTolerance d := by
  unfold zodOrderValid at h
  simp only [Bool.and_eq_true] at h
  have ht : totalAmountOk d = true := h.2
  unfold totalAmountOk at ht
  unfold totalWithinTolerance
  exact of_decide_eq_true ht

/-- Inversion of the Zod validation step: a success means the body had a
user and a delivery time, the result is the defaulted document, and the
document passes every schema check. -/
theorem orderValidate_some_inv (b : RawOrderBody) (d : OrderData)
    (h : orderValidate b = some d) :
    ∃ u dt, b.user = some u ∧ b.deliveryTime = some dt ∧
      d = buildOrderData u dt b ∧ zodOrderValid d = true := by
  unfold orderValidate at h
  cases hu : b.user with
  | none => rw [hu] at h; cases h
  | some u =>
    cases hdt : b.deliveryTime with
    | none => rw [hu, hdt] at h; cases h
    | some dt =>
      rw [hu, hdt] at h
      dsimp only at h
      by_cases hz : zodOrderValid (buildOrderData u dt b) = true
      · rw [if_pos hz] at h
        cases h
        exact ⟨u, dt, rfl, rfl, rfl, hz⟩
      · rw [if_neg hz] at h
        cases h

/-- Complete case analysis of an authenticated placement call: validation
failure with no side effects, a throwing stock loop whose partial gift
writes survive the abort, a rejected order save whose gift writes also
survive, or a committed order. -/
theorem placeOrder_some_spec (uid : String) (b : RawOrderBody) (now : Int)
    (newId : String) (db : DB) :
    (orderValidate (stampBody uid now b) = none ∧
      placeOrder (some uid) b now newId db =
        ⟨.validationFailed, db, [.connect]⟩) ∨
    (∃ data gifts' evs gid,
      orderValidate (stampBody uid now b) = some data ∧
      processItems db.gifts data.items = (gifts', evs, some gid) ∧
      placeOrder (some uid) b now newId db =
        ⟨.stockFailure gid, ⟨gifts', db.orders⟩,
          .connect :: .txStart :: evs ++ [.txAbort]⟩) ∨
    (∃ data gifts' evs,
      orderValidate (stampBody uid now b) = some data ∧
      processItems db.gifts data.items = (gifts', evs, none) ∧
      orderSaveOk (mkOrder data now) = false ∧
      placeOrder (some uid) b now newId db =
        ⟨.saveFailure, ⟨gifts', db.orders⟩,
          .connect :: .txStart :: evs ++ [.txAbort]⟩) ∨
    (∃ data gifts' evs,
      orderValidate (stampBody uid now b) = some data ∧
      processItems db.gifts data.items = (gifts', evs, none) ∧
      orderSaveOk (mkOrder data now) = true ∧
      placeOrder (some uid) b now newId db =
        ⟨.created (mkOrder data now),
          ⟨gifts', db.orders ++ [(newId, mkOrder data now)]⟩,
          .connect :: .txStart :: evs ++ [.orderWrite, .txCommit]⟩) := by
  unfold placeOrder
  dsimp only
  cases hv : orderValidate (stampBody uid now b) with
  | none => exact Or.inl ⟨rfl, rfl⟩
  | some data =>
    dsimp only
    rcases hp : processItems db.gifts data.items with ⟨gs, evs, err⟩
    cases err with
    | some gid =>
      exact Or.inr (Or.inl ⟨data, gs, evs, gid, rfl, hp, rfl⟩)
    | none =>
      dsimp only
      by_cases hs : orderSaveOk (mkOrder data now) = true
      · rw [if_pos hs]
        exact Or.inr (Or.inr (Or.inr ⟨data, gs, evs, rfl, hp, hs, rfl⟩))
      · rw [if_neg hs]
        exact Or.inr (Or.inr (Or.inl
          ⟨data, gs, evs, rfl, hp, eq_false_of_ne_true hs, rfl⟩))

/-- Replacing `specialInstructions` leaves the status untouched. -/
theorem applyInstructions_status (o : OrderData) (si : Option String) :
    (applyInstructions o si).status = o.status := by cases si <;> rfl

/-- Replacing `specialInstructions` leaves the tracking untouched. -/
theorem applyInstructions_tracking (o : OrderData) (si : Option String) :
    (applyInstructions o si).tracking = o.tracking := by cases si <;> rfl

/-- Replacing `specialInstructions` does not change whether an order
document passes the save-time validation. -/
theorem orderSaveOk_applyInstructions (o : OrderData) (si : Option String) :
    orderSaveOk (applyInstructions o si) = orderSaveOk o := by cases si <;> rfl

/-- Flipping a savable order to `canceled` and appending the cancellation
tracking event keeps it savable. -/
theorem orderSaveOk_cancel (o : OrderData) (now : Int) (desc : String)
    (h : orderSaveOk o = true) :
    orderSaveOk { o with
        status := "canceled"
        tracking := o.tracking ++ [⟨"canceled", now, desc⟩] } = true := by
  unfold orderSaveOk mongooseOrderValid zodOrderValid totalAmountOk at h ⊢
  simp only [Bool.and_eq_true, List.all_append, List.all_cons, List.all_nil,
    decide_eq_true_eq] at h ⊢
  have hc1 : orderStatuses.contains "canceled" = true := by decide
  have hc2 : "canceled".length ≥ 1 := by decide
  tauto

/-- Membership in a replaced order store. -/
theorem mem_saveOrder (ledger : OrderStore) (id : String) (o : OrderData)
    (p : String × OrderData) (h : p ∈ saveOrder ledger id o) :
    p ∈ ledger ∨ p = (id, o) := by
  unfold saveOrder at h
  rcases List.mem_map.mp h with ⟨q, hq, hEq⟩
  by_cases hid : q.1 = id
  · right
    rw [← hEq]
    simp [hid]
  · left
    rw [← hEq]
    simpa [hid] using hq

/-- Any document accepted by `order.save()` satisfies the monetary
tolerance (the Zod re-validation of the `pre("save")` hook enforces it). -/
theorem orderSaveOk_tolerance (o : OrderData) (h : orderSaveOk o = true) :
    totalWithinTolerance o := by
  unfold orderSaveOk at h
  simp only [Bool.and_eq_true] at h
  exact zodOrderValid_tolerance o h.2

/-- The order store an update call leaves behind is either untouched or a
replacement save of a document that passed the save-time validation. -/
theorem updateOrder_orders_cases (c : Option String) (oid : String)
    (ub : UpdateBody) (now : Int) (db : DB) :
    (updateOrder c oid ub now db).2.orders = db.orders ∨
    ∃ o2, orderSaveOk o2 = true ∧
      (updateOrder c oid ub now db).2.orders = saveOrder db.orders oid o2 := by
  unfold updateOrder
  split
  · exact Or.inl rfl
  next uid =>
    split
    · exact Or.inl rfl
    next o hfo =>
      split
      · exact Or.inl rfl
      · split
        · exact Or.inl rfl
        · dsimp only
          split
          · split
            next hsv => exact Or.inr ⟨_, hsv, rfl⟩
            next hsv => exact Or.inl rfl
          · split
            next hsv => exact Or.inr ⟨_, hsv, rfl⟩
            next hsv => exact Or.inl rfl

/-- A cancellation request on a caller-owned, mutable, savable order
updates the store to the canceled document. -/
theorem updateOrder_cancel_eq (uid oid : String) (ub : UpdateBody)
    (now : Int) (db : DB) (o : OrderData)
    (hfo : findOrder db.orders oid = some o) (hown : o.user = uid)
    (hst : o.status = "pending" ∨ o.status = "confirmed")
    (hcs : ub.status = some "canceled") (hsv : orderSaveOk o = true) :
    updateOrder (some uid) oid ub now db =
      (.updated (cancelUpdate o ub now),
        { db with orders := saveOrder db.orders oid (cancelUpdate o ub now) }) := by
  unfold updateOrder
  rw [hfo]
  dsimp only
  rw [if_neg (by simp [hown])]
  rw [if_neg (not_not_intro hst)]
  rw [if_pos (show ub.status = some "canceled" ∧
      ((applyInstructions o ub.specialInstructions).status = "pending" ∨
        (applyInstructions o ub.specialInstructions).status = "confirmed") from
    ⟨hcs, by rw [applyInstructions_status]; exact hst⟩)]
  rw [if_pos (orderSaveOk_cancel (applyInstructions o ub.specialInstructions) now
    (cancelDescription ub.cancellationReason)
    (by rw [orderSaveOk_applyInstructions]; exact hsv))]
  rfl

/-- An update request that does not ask for cancellation, on a
caller-owned, mutable, savable order, saves only the instruction change:
the status is untouched. -/
theorem updateOrder_noncancel_eq (uid oid : String) (ub : UpdateBody)
    (now : Int) (db : DB) (o : OrderData)
    (hfo : findOrder db.orders oid = some o) (hown : o.user = uid)
    (hst : o.status = "pending" ∨ o.status = "confirmed")
    (hcs : ub.status ≠ some "canceled") (hsv : orderSaveOk o = true) :
    updateOrder (some uid) oid ub now db =
      (.updated (applyInstructions o ub.specialInstructions),
        { db with orders :=
            saveOrder db.orders oid (applyInstructions o ub.specialInstructions) }) := by
  unfold updateOrder
  rw [hfo]
  dsimp only
  rw [if_neg (by simp [hown])]
  rw [if_neg (not_not_intro hst)]
  rw [if_neg (show ¬ (ub.status = some "canceled" ∧
      ((applyInstructions o ub.specialInstructions).status = "pending" ∨
        (applyInstructions o ub.specialInstructions).status = "confirmed")) from
    fun hand => hcs hand.1)]
  rw [if_pos (show orderSaveOk (applyInstructions o ub.specialInstructions) = true
    from by rw [orderSaveOk_applyInstructions]; exact hsv)]

/-- An update request on a caller-owned order that is neither pending nor
confirmed is rejected with the invalid-state error and no change. -/
theorem updateOrder_invalid_eq (uid oid : String) (ub : UpdateBody)
    (now : Int) (db : DB) (o : OrderData)
    (hfo : findOrder db.orders oid = some o) (hown : o.user = uid)
    (hno : ¬ (o.status = "pending" ∨ o.status = "confirmed")) :
    updateOrder (some uid) oid ub now db = (.invalidState, db) := by
  unfold updateOrder
  rw [hfo]
  dsimp only
  rw [if_neg (by simp [hown])]
  rw [if_pos hno]

/-- Whatever document an update call returns as updated, its status is
either the stored order's status, or `canceled` reached from a stored
`pending`/`confirmed` status. -/
theorem updateOrder_updated_status (uid oid : String) (ub : UpdateBody)
    (now : Int) (db : DB) (o o' : OrderData) (db' : DB)
    (hfo : findOrder db.orders oid = some o)
    (h : updateOrder (some uid) oid ub now db = (.updated o', db')) :
    o'.status = o.status ∨
      (o'.status = "canceled" ∧
        (o.status = "pending" ∨ o.status = "confirmed")) := by
  unfold updateOrder at h
  rw [hfo] at h
  dsimp only at h
  by_cases how : o.user ≠ uid
  · rw [if_pos how] at h
    cases h
  · rw [if_neg how] at h
    by_cases hno : ¬ (o.status = "pending" ∨ o.status = "confirmed")
    · rw [if_pos hno] at h
      cases h
    · rw [if_neg hno] at h
      by_cases hcan : ub.status = some "canceled" ∧
          ((applyInstructions o ub.specialInstructions).status = "pending" ∨
            (applyInstructions o ub.specialInstructions).status = "confirmed")
      · rw [if_pos hcan] at h
        by_cases hsv : orderSaveOk
            { applyInstructions o ub.specialInstructions with
                status := "canceled"
                tracking := (applyInstructions o ub.specialInstructions).tracking ++
                  [⟨"canceled", now, cancelDescription ub.cancellationReason⟩] } = true
        · rw [if_pos hsv] at h
          cases h
          exact Or.inr ⟨rfl, of_not_not hno⟩
        · rw [if_neg hsv] at h
          cases h
      · rw [if_neg hcan] at h
        by_cases hsv : orderSaveOk (applyInstructions o ub.specialInstructions) = true
        · rw [if_pos hsv] at h
          cases h
          exact Or.inl (applyInstructions_status o ub.specialInstructions)
        · rw [if_neg hsv] at h
          cases h

/-! ## Claims -/

set_option maxRecDepth 8000 in
/-- C1: the claim states that placement is all-or-nothing: when the second
line item fails its stock check, no stock decrement from the request may
remain visible and no order may be created.  The code violates this: the
per-item `gift.save({ session })` passes the next-auth session instead of
`orderSession`, so the first item's decrement is durable before the abort,
which rolls back only the order write.  Evaluated at the failing input —
a two-item request against `demoDB` whose first item (2 × gift `"g1"`,
stocked at 5) passes and whose second item (gift `"g2"`, out of stock)
throws — the call fails, creates no order, and still leaves `"g1"`
decremented from 5 to 3. -/
theorem claim1_partial_decrement_persists :
    (placeOrder (some "u1") twoItemBody 0 "o9" demoDB).result
        = .stockFailure "g2" ∧
    (placeOrder (some "u1") twoItemBody 0 "o9" demoDB).db.orders = [] ∧
    findGift demoDB.gifts "g1" = some teddy ∧
    findGift (placeOrder (some "u1") twoItemBody 0 "o9" demoDB).db.gifts "g1"
        = some { teddy with stockCount := 3 } ∧
    ({ teddy with stockCount := 3 } : Gift) ≠ teddy := by
  with_unfolding_all decide

/-- C2: after any placement call — authenticated or not, succeeding or
failing — every gift in the store is either exactly the gift that was
there before the call, or satisfies `inStock == (stockCount > 0)`; in
particular every gift the call touched (mutated) satisfies the invariant
when the call returns. -/
theorem claim2_stock_invariant_after_placement (callerId : Option String)
    (body : RawOrderBody) (now : Int) (newId : String) (db : DB)
    (id : String) (g' : Gift)
    (h : findGift (placeOrder callerId body now newId db).db.gifts id = some g') :
    findGift db.gifts id = some g' ∨ giftInvariant g' := by
  rcases placeOrder_gifts_cases callerId body now newId db with
    heq | ⟨items, evs, err, hp⟩
  · rw [heq] at h
    exact Or.inl h
  · exact processItems_kept_or_invariant items db.gifts _ evs err id g' hp h

set_option maxRecDepth 8000 in
/-- Witness for C2 at the failed two-item placement: gift `"g1"` was
decremented to 3 and the invariant holds for it. -/
theorem claim2_witness :
    findGift demoDB.gifts "g1" = some { teddy with stockCount := 3 } ∨
      giftInvariant { teddy with stockCount := 3 } :=
  claim2_stock_invariant_after_placement (some "u1") twoItemBody 0 "o9" demoDB
    "g1" { teddy with stockCount := 3 } (by with_unfolding_all decide)

set_option maxRecDepth 8000 in
/-- C8, as stated, is false on the code: the claim says an unauthenticated
placement request never touches the database in any step, but the handler
runs `connectToDatabase()` (line 20) before the session check (line 23),
so the event trace of an unauthenticated request contains the
database-connect step. -/
theorem claim8_counterexample :
    (placeOrder none oneItemBody 0 "o1" demoDB).result = .unauthenticated ∧
    (placeOrder none oneItemBody 0 "o1" demoDB).events = [.connect] ∧
    (placeOrder none oneItemBody 0 "o1" demoDB).events ≠ [] := by
  with_unfolding_all decide

/-- C8 amended: an unauthenticated placement call returns the 401 result,
leaves the database state completely unchanged, and performs no database
read or write — but it does establish the database connection before the
authentication check, so the check is not before all database access. -/
theorem claim8_amended_unauthenticated (b : RawOrderBody) (now : Int)
    (newId : String) (db : DB) :
    placeOrder none b now newId db = ⟨.unauthenticated, db, [.connect]⟩ := rfl

/-- C9: a GET of an existing order by an authenticated caller who is not
the owner answers `Access denied` (HTTP 403) with no order payload, and
returns the database unchanged. -/
theorem claim9_get_access_denied (uid oid : String) (db : DB) (o : OrderData)
    (hfo : findOrder db.orders oid = some o) (hne : o.user ≠ uid) :
    getOrder (some uid) oid db = (.accessDenied, db) := by
  unfold getOrder
  rw [hfo]
  dsimp only
  rw [if_pos hne]

set_option maxRecDepth 8000 in
/-- Witness for C9: caller `"u2"` requesting the order owned by `"u1"`. -/
theorem claim9_witness :
    getOrder (some "u2") "o1" demoOrderDB = (.accessDenied, demoOrderDB) :=
  claim9_get_access_denied "u2" "o1" demoOrderDB demoOrder
    (by with_unfolding_all decide) (by with_unfolding_all decide)

/-- C3: totalAmount reconciliation.  (1) Any order document accepted by
`order.save()` satisfies the item/fee/tax/discount formula within 0.01;
(2) any request body passing placement validation satisfies it; (3) a
request failing placement validation is rejected with no side effects;
(4) after any placement call every order in the ledger was either already
there or satisfies the formula; (5) likewise after any update call (the
`pre("save")` hook re-validates every later save). -/
theorem claim3_total_amount_invariant :
    (∀ o : OrderData, orderSaveOk o = true → totalWithinTolerance o) ∧
    (∀ (b : RawOrderBody) (d : OrderData), orderValidate b = some d →
      totalWithinTolerance d) ∧
    (∀ (uid : String) (b : RawOrderBody) (now : Int) (newId : String)
      (db : DB), orderValidate (stampBody uid now b) = none →
      placeOrder (some uid) b now newId db =
        ⟨.validationFailed, db, [.connect]⟩) ∧
    (∀ (c : Option String) (b : RawOrderBody) (now : Int) (newId : String)
      (db : DB) (p : String × OrderData),
      p ∈ (placeOrder c b now newId db).db.orders →
      p ∈ db.orders ∨ totalWithinTolerance p.2) ∧
    (∀ (c : Option String) (oid : String) (ub : UpdateBody) (now : Int)
      (db : DB) (p : String × OrderData),
      p ∈ (updateOrder c oid ub now db).2.orders →
      p ∈ db.orders ∨ totalWithinTolerance p.2) := by
  refine ⟨fun o h => orderSaveOk_tolerance o h, ?_, ?_, ?_, ?_⟩
  · intro b d h
    obtain ⟨u, dt, hu, hdt, hd, hz⟩ := orderValidate_some_inv b d h
    exact zodOrderValid_tolerance d hz
  · intro uid b now newId db h
    unfold placeOrder
    dsimp only
    rw [h]
  · intro c b now newId db p hp
    cases c with
    | none => exact Or.inl hp
    | some uid =>
      rcases placeOrder_some_spec uid b now newId db with
        ⟨hv, heq⟩ | ⟨data, gifts2, evs, gid, hv, hpi, heq⟩ |
        ⟨data, gifts2, evs, hv, hpi, hs, heq⟩ |
        ⟨data, gifts2, evs, hv, hpi, hs, heq⟩
      · rw [heq] at hp
        exact Or.inl hp
      · rw [heq] at hp
        exact Or.inl hp
      · rw [heq] at hp
        exact Or.inl hp
      · rw [heq] at hp
        rcases List.mem_append.mp hp with h1 | h2
        · exact Or.inl h1
        · rw [List.mem_singleton] at h2
          subst h2
          exact Or.inr (orderSaveOk_tolerance _ hs)
  · intro c oid ub now db p hp
    rcases updateOrder_orders_cases c oid ub now db with heq | ⟨o2, hs, heq⟩
    · rw [heq] at hp
      exact Or.inl hp
    · rw [heq] at hp
      rcases mem_saveOrder db.orders oid o2 p hp with h1 | h2
      · exact Or.inl h1
      · rw [h2]
        exact Or.inr (orderSaveOk_tolerance o2 hs)

/-- Witness for C3: the demo order is accepted by the save gate and
satisfies the formula. -/
theorem claim3_witness : totalWithinTolerance demoOrder :=
  claim3_total_amount_invariant.1 demoOrder (by with_unfolding_all decide)

set_option maxRecDepth 8000 in
/-- C4 is false as stated, in two ways, each at a concrete input.

First, the status: the claim says every successful placement persists the
order with status `"pending"` even when the body supplies another status.
But `validation.data.status` keeps a caller-supplied status (the Zod
default applies only when the field is absent), and the handler never
overwrites it: placing `statusBody` — identical to `oneItemBody` except
`status: "confirmed"` — succeeds and persists an order whose status is
`"confirmed"`, not `"pending"`.

Second, the per-item decrement: the claim says each referenced gift's
`stockCount` is decremented by exactly the requested quantity.  For a
request whose two line items reference the same gift (`dupBody`:
quantities 2 and 3 against gift `"g1"` stocked at 5), the placement
succeeds, yet the stored stock after the call is not `5 − 2 = 3`: the
loop's later write to the same gift supersedes the first item's exact
decrement, so the per-item guarantee fails for duplicate references —
this is what forces the amended claim's restriction to requests whose
line items reference pairwise-distinct gifts.  (The stated inequality
holds under both the embedding's threaded reads and the code's
snapshot-isolated reads, which differ only in the final value they leave,
not in refuting the first item's exact decrement.) -/
theorem claim4_counterexample :
    ((placeOrder (some "u1") statusBody 0 "o2" demoDB).result
      = .created confirmedPlaced ∧
    confirmedPlaced.status = "confirmed" ∧
    confirmedPlaced.status ≠ "pending") ∧
    ((placeOrder (some "u1") dupBody 0 "o4" demoDB).result
      = .created dupOrder ∧
    dupBody.items.map (fun it => it.gift) = ["g1", "g1"] ∧
    dupBody.items.map (fun it => it.quantity) = [2, 3] ∧
    findGift demoDB.gifts "g1" = some teddy ∧
    teddy.stockCount = 5 ∧
    findGift (placeOrder (some "u1") dupBody 0 "o4" demoDB).db.gifts "g1"
      ≠ some { teddy with stockCount := 3 }) := by
  with_unfolding_all decide

/-- C4 amended, changed exactly where the counterexample shows the claim
fails: on every successful placement, exactly one new order is appended
and its tracking is the single `pending` "Order received" event; each
referenced gift is decremented by exactly the requested quantity with
`inStock` flipped when the count reaches 0 — for requests whose line
items reference pairwise-distinct gifts, since a duplicate reference
loses the earlier item's exact decrement (second conjunct of the
counterexample); and the order's status equals the status supplied in the
request body when one is present, `"pending"` only by default when absent
(first conjunct of the counterexample). -/
theorem claim4_amended_success_effects (uid : String) (b : RawOrderBody)
    (now : Int) (newId : String) (db : DB) (o : OrderData)
    (hres : (placeOrder (some uid) b now newId db).result = .created o)
    (hnd : (b.items.map (fun it => it.gift)).Nodup) :
    (∀ it ∈ b.items, ∃ g, findGift db.gifts it.gift = some g ∧
      g.inStock = true ∧ it.quantity ≤ g.stockCount ∧
      findGift (placeOrder (some uid) b now newId db).db.gifts it.gift
        = some (decrementGift g it.quantity)) ∧
    (placeOrder (some uid) b now newId db).db.orders
      = db.orders ++ [(newId, o)] ∧
    o.status = b.status.getD "pending" ∧
    o.tracking = [⟨"pending", now, "Order received"⟩] := by
  rcases placeOrder_some_spec uid b now newId db with
    ⟨hv, heq⟩ | ⟨data, gifts2, evs, gid, hv, hp, heq⟩ |
    ⟨data, gifts2, evs, hv, hp, hs, heq⟩ | ⟨data, gifts2, evs, hv, hp, hs, heq⟩
  · rw [heq] at hres
    cases hres
  · rw [heq] at hres
    cases hres
  · rw [heq] at hres
    cases hres
  · rw [heq] at hres
    cases hres
    obtain ⟨u, dt, hu, hdt, hdata, hz⟩ := orderValidate_some_inv _ _ hv
    subst hdata
    rw [heq]
    refine ⟨?_, rfl, rfl, rfl⟩
    intro it hit
    exact processItems_ok_decrement b.items db.gifts gifts2 evs hp hnd it hit

set_option maxRecDepth 8000 in
/-- Witness for C4 (amended) at the one-item demo placement. -/
theorem claim4_witness :
    (placeOrder (some "u1") oneItemBody 0 "o1" demoDB).db.orders
      = demoDB.orders ++ [("o1", demoOrder)] ∧
    demoOrder.status = oneItemBody.status.getD "pending" ∧
    demoOrder.tracking = [⟨"pending", 0, "Order received"⟩] :=
  (claim4_amended_success_effects "u1" oneItemBody 0 "o1" demoDB demoOrder
    (by with_unfolding_all decide) (by with_unfolding_all decide)).2

set_option maxRecDepth 8000 in
/-- C7: the claim says placement validation only accepts line items with
quantity ≥ 1 and rejects fractional quantities below 1 before any stock
mutation.  The code is wrong: `OrderItemSchema` requires only
`z.number().positive()`, contradicting the Order model's own `min: 1`
schema constraint.  Evaluated at the failing input — one line item with
quantity 0.5 against gift `"g1"` stocked at 5 — placement validation
accepts the body, the stock loop durably decrements the gift from 5 to
4.5, and only then the save-time `min: 1` validator rejects the order:
the request is rejected after, not before, the stock mutation. -/
theorem claim7_fractional_quantity_mutates_stock :
    (orderValidate (stampBody "u1" 0 fractionalBody)).isSome = true ∧
    fractionalBody.items.all (fun it => decide (it.quantity < 1)) = true ∧
    (placeOrder (some "u1") fractionalBody 0 "o3" demoDB).result
      = .saveFailure ∧
    findGift (placeOrder (some "u1") fractionalBody 0 "o3" demoDB).db.gifts
        "g1" = some { teddy with stockCount := 9/2 } ∧
    ({ teddy with stockCount := 9/2 } : Gift) ≠ teddy ∧
    (placeOrder (some "u1") fractionalBody 0 "o3" demoDB).db.orders = [] := by
  with_unfolding_all decide

/-- C5: the handler overwrites `body.user` with the session's caller id
before validation, so two placement requests identical except for the
caller-supplied `user` field produce identical outcomes, and every
created order is owned by the authenticated caller. -/
theorem claim5_owner_stamped (uid : String) (u1 u2 : Option String)
    (b : RawOrderBody) (now : Int) (newId : String) (db : DB) :
    placeOrder (some uid) { b with user := u1 } now newId db =
      placeOrder (some uid) { b with user := u2 } now newId db ∧
    ∀ o, (placeOrder (some uid) b now newId db).result = .created o →
      o.user = uid := by
  constructor
  · rfl
  · intro o hres
    rcases placeOrder_some_spec uid b now newId db with
      ⟨hv, heq⟩ | ⟨data, gifts2, evs, gid, hv, hp, heq⟩ |
      ⟨data, gifts2, evs, hv, hp, hs, heq⟩ |
      ⟨data, gifts2, evs, hv, hp, hs, heq⟩
    · rw [heq] at hres
      cases hres
    · rw [heq] at hres
      cases hres
    · rw [heq] at hres
      cases hres
    · rw [heq] at hres
      cases hres
      obtain ⟨u, dt, hu, hdt, hdata, hz⟩ := orderValidate_some_inv _ _ hv
      subst hdata
      exact (Option.some.inj (show some uid = some u from hu)).symm

set_option maxRecDepth 8000 in
/-- Witness for C5: same caller, `user` field set to an attacker id in one
request and absent in the other — identical outcomes, and the persisted
demo order is owned by the caller. -/
theorem claim5_witness :
    placeOrder (some "u1") { oneItemBody with user := some "attacker" } 0
        "o1" demoDB =
      placeOrder (some "u1") { oneItemBody with user := none } 0 "o1" demoDB ∧
    demoOrder.user = "u1" :=
  ⟨(claim5_owner_stamped "u1" (some "attacker") none oneItemBody 0 "o1"
      demoDB).1,
    (claim5_owner_stamped "u1" (some "attacker") none oneItemBody 0 "o1"
      demoDB).2 demoOrder (by with_unfolding_all decide)⟩

set_option maxRecDepth 8000 in
/-- C6 is false as stated: the claim says the cancellation tracking
event's description is `patch.cancellationReason` whenever one is
supplied.  The handler computes
`body.cancellationReason || "Canceled by customer"` with JavaScript `||`,
so a supplied empty-string reason is discarded: cancelling the pending
demo order with `cancellationReason: ""` appends an event whose
description is `"Canceled by customer"`, not the supplied `""`. -/
theorem claim6_counterexample :
    (updateOrder (some "u1") "o1" ⟨none, some "canceled", some ""⟩ 50
        demoOrderDB).1 = .updated canceledDefaultDesc ∧
    canceledDefaultDesc.tracking
      = demoOrder.tracking ++ [⟨"canceled", 50, "Canceled by customer"⟩] ∧
    "Canceled by customer" ≠ "" := by
  with_unfolding_all decide

/-- C6 amended: for an order owned by the caller, a cancellation request
while the status is `pending` or `confirmed` (and the stored document
passes the save validation) flips the status to `canceled` and appends
exactly one tracking event `{status: "canceled", timestamp: now,
description: cancellationReason when supplied and non-empty, otherwise
"Canceled by customer"}`; while the status is any other value the request
is rejected with the invalid-state error (HTTP 400) and the order is
unchanged. -/
theorem claim6_amended_cancellation (uid oid : String) (ub : UpdateBody)
    (now : Int) (db : DB) (o : OrderData)
    (hfo : findOrder db.orders oid = some o) (hown : o.user = uid) :
    ((o.status = "pending" ∨ o.status = "confirmed") →
      ub.status = some "canceled" → orderSaveOk o = true →
      (updateOrder (some uid) oid ub now db).1
          = .updated (cancelUpdate o ub now) ∧
      (cancelUpdate o ub now).status = "canceled" ∧
      (cancelUpdate o ub now).tracking = o.tracking ++
        [⟨"canceled", now, cancelDescription ub.cancellationReason⟩]) ∧
    (¬ (o.status = "pending" ∨ o.status = "confirmed") →
      updateOrder (some uid) oid ub now db = (.invalidState, db)) := by
  constructor
  · intro hst hcs hsv
    refine ⟨?_, rfl, ?_⟩
    · rw [updateOrder_cancel_eq uid oid ub now db o hfo hown hst hcs hsv]
    · unfold cancelUpdate
      rw [applyInstructions_tracking]
  · intro hno
    exact updateOrder_invalid_eq uid oid ub now db o hfo hown hno

set_option maxRecDepth 8000 in
/-- Witness for C6 (amended): cancelling the pending demo order with
reason "changed mind" succeeds with that description; cancelling the
delivered demo order is rejected with the invalid-state error. -/
theorem claim6_witness :
    ((updateOrder (some "u1") "o1" ⟨none, some "canceled", some "changed mind"⟩
        50 demoOrderDB).1
      = .updated (cancelUpdate demoOrder
          ⟨none, some "canceled", some "changed mind"⟩ 50) ∧
      (cancelUpdate demoOrder ⟨none, some "canceled", some "changed mind"⟩
        50).status = "canceled" ∧
      (cancelUpdate demoOrder ⟨none, some "canceled", some "changed mind"⟩
        50).tracking = demoOrder.tracking ++
          [⟨"canceled", 50, cancelDescription (some "changed mind")⟩]) ∧
    updateOrder (some "u1") "o2" ⟨none, some "canceled", some "changed mind"⟩
        50 demoDeliveredDB = (.invalidState, demoDeliveredDB) := by
  constructor
  · exact (claim6_amended_cancellation "u1" "o1"
      ⟨none, some "canceled", some "changed mind"⟩ 50 demoOrderDB demoOrder
      (by with_unfolding_all decide) rfl).1 (Or.inl rfl) rfl
      (by with_unfolding_all decide)
  · exact (claim6_amended_cancellation "u1" "o2"
      ⟨none, some "canceled", some "changed mind"⟩ 50 demoDeliveredDB
      deliveredOrder (by with_unfolding_all decide) rfl).2 (by decide)

/-- C10: the update operation never sets a status other than `canceled`:
a patch asking for any non-`canceled` status on a caller-owned, mutable,
savable order succeeds while leaving the status unchanged, and whenever an
update call returns an updated document, its status is either the stored
status or `canceled` reached from `pending`/`confirmed` — the only status
transitions reachable through `updateOrder`. -/
theorem claim10_no_forward_transitions (uid oid : String) (ub : UpdateBody)
    (now : Int) (db : DB) (o : OrderData)
    (hfo : findOrder db.orders oid = some o) :
    (∀ s, ub.status = some s → s ≠ "canceled" → o.user = uid →
      (o.status = "pending" ∨ o.status = "confirmed") →
      orderSaveOk o = true →
      (updateOrder (some uid) oid ub now db).1
          = .updated (applyInstructions o ub.specialInstructions) ∧
      (applyInstructions o ub.specialInstructions).status = o.status) ∧
    (∀ o' db', updateOrder (some uid) oid ub now db = (.updated o', db') →
      o'.status = o.status ∨
        (o'.status = "canceled" ∧
          (o.status = "pending" ∨ o.status = "confirmed"))) := by
  constructor
  · intro s hs hne hown hst hsv
    have hcs : ub.status ≠ some "canceled" := by
      rw [hs]
      intro hEq
      exact hne (Option.some.inj hEq)
    rw [updateOrder_noncancel_eq uid oid ub now db o hfo hown hst hcs hsv]
    exact ⟨rfl, applyInstructions_status o ub.specialInstructions⟩
  · intro o' db' h
    exact updateOrder_updated_status uid oid ub now db o o' db' hfo h

set_option maxRecDepth 8000 in
/-- Witness for C10: a patch asking for status `"delivered"` on the
pending demo order succeeds with the status still `"pending"`. -/
theorem claim10_witness :
    (updateOrder (some "u1") "o1" ⟨none, some "delivered", none⟩ 50
        demoOrderDB).1 = .updated (applyInstructions demoOrder none) ∧
    (applyInstructions demoOrder none).status = demoOrder.status :=
  (claim10_no_forward_transitions "u1" "o1" ⟨none, some "delivered", none⟩ 50
      demoOrderDB demoOrder (by with_unfolding_all decide)).1
    "delivered" rfl (by decide) rfl (Or.inl rfl)
    (by with_unfolding_all decide)

end GiftApp
